import Mathlib

/-!
Verification of the artifact-download, extraction and lockfile-update logic of
the pixi-build-testsuite repository.

The Python scripts under `scripts/` and `testsuite/scripts/` are embedded
shallowly: Python strings become `List Char`, the GitHub API surface becomes an
explicit environment record, file-system effects become values describing the
files an operation produces, and raised exceptions become `Except` errors.
Every definition mirrors the corresponding Python function line by line; doc
comments name the source location.
-/

/-- A Python string, as its sequence of characters. -/
abbrev Str := List Char

/-- Python's substring test `pat in hay` on strings: true exactly when `pat`
occurs contiguously inside `hay` (the empty pattern occurs in every string). -/
def pyIn (pat : Str) : Str → Bool
  | [] => pat.isEmpty
  | c :: t => pat.isPrefixOf (c :: t) || pyIn pat t

/-- `pyIn` decides Mathlib's contiguous-sublist relation `<:+:`. -/
theorem pyIn_infix_iff (pat hay : Str) : pyIn pat hay = true ↔ pat <:+: hay := by
  induction hay with
  | nil =>
    simp only [pyIn, List.isEmpty_iff, List.infix_nil]
  | cons c t ih =>
    simp only [pyIn, Bool.or_eq_true, List.isPrefixOf_iff_prefix, ih,
      List.infix_cons_iff]

/-- `scripts/download-artifacts.py:164` and
`testsuite/scripts/download-artifacts.py:191`, `get_matching_artifact`:
walk the run's artifact list in order and return the first artifact whose
name contains the platform pattern as a substring; `None` when there is none.
An artifact is represented by its name. -/
def get_matching_artifact (artifacts : List Str) (artifact_name_pattern : Str) :
    Option Str :=
  artifacts.find? (fun artifact => pyIn artifact_name_pattern artifact)

theorem get_matching_artifact_none_iff (artifacts : List Str) (pat : Str) :
    get_matching_artifact artifacts pat = none ↔
      ∀ a ∈ artifacts, ¬ pat <:+: a := by
  simp only [get_matching_artifact, List.find?_eq_none, pyIn_infix_iff]

theorem get_matching_artifact_some (artifacts : List Str) (pat : Str) (a : Str)
    (h : get_matching_artifact artifacts pat = some a) :
    ∃ pre post, artifacts = pre ++ a :: post ∧ pat <:+: a ∧
      ∀ b ∈ pre, ¬ pat <:+: b := by
  induction artifacts with
  | nil => simp [get_matching_artifact] at h
  | cons x xs ih =>
    by_cases hx : pyIn pat x = true
    · rw [get_matching_artifact, List.find?_cons_of_pos _ hx] at h
      refine ⟨[], xs, ?_, ?_, ?_⟩
      · simpa using (Option.some.injEq .. ▸ h :)
      · cases h; exact (pyIn_infix_iff pat a).mp hx
      · intro b hb; simp at hb
    · rw [get_matching_artifact, List.find?_cons_of_neg _ hx] at h
      obtain ⟨pre, post, hsplit, hmatch, hpre⟩ := ih h
      refine ⟨x :: pre, post, by simp [hsplit], hmatch, ?_⟩
      intro b hb
      rcases List.mem_cons.mp hb with rfl | hb
      · exact fun hcon => hx ((pyIn_infix_iff pat b).mpr hcon)
      · exact hpre b hb

/-- C1: `get_matching_artifact` returns the first artifact, in list order,
whose name contains the pattern as a substring, and `none` when no artifact
name contains it; on the artifact list
`["pixi-linux-x86_64", "pixi-macos-aarch64"]` with pattern `"linux-x86_64"`
it returns the first artifact exactly. -/
theorem C1_get_matching_artifact_first_substring_match
    (artifacts : List Str) (pat : Str) :
    (∀ a, get_matching_artifact artifacts pat = some a →
      ∃ pre post, artifacts = pre ++ a :: post ∧ pat <:+: a ∧
        ∀ b ∈ pre, ¬ pat <:+: b) ∧
    (get_matching_artifact artifacts pat = none ↔
      ∀ a ∈ artifacts, ¬ pat <:+: a) ∧
    get_matching_artifact ["pixi-linux-x86_64".toList, "pixi-macos-aarch64".toList]
        "linux-x86_64".toList = some "pixi-linux-x86_64".toList := by
  refine ⟨fun a h => get_matching_artifact_some artifacts pat a h,
    get_matching_artifact_none_iff artifacts pat, by decide⟩

/-- `scripts/download-artifacts.py:21` and
`testsuite/scripts/download-artifacts.py:36`, `get_current_platform`:
map the (lower-cased) `platform.system()` and `platform.machine()` values to
the platform tag used in artifact names, raising
`ValueError("Unsupported platform: {system}-{machine}")` for every other
combination. The Python function lower-cases its inputs first; the embedding
takes the lower-cased values. -/
def get_current_platform (system machine : String) : Except String String :=
  if system = "linux" then
    if machine ∈ ["x86_64", "amd64"] then .ok "linux-x86_64"
    else if machine ∈ ["aarch64", "arm64"] then .ok "linux-aarch64"
    else .error ("Unsupported platform: " ++ system ++ "-" ++ machine)
  else if system = "darwin" then
    if machine ∈ ["arm64", "aarch64"] then .ok "macos-aarch64"
    else if machine ∈ ["x86_64", "amd64"] then .ok "macos-x86_64"
    else .error ("Unsupported platform: " ++ system ++ "-" ++ machine)
  else if system = "windows" then
    if machine ∈ ["x86_64", "amd64"] then .ok "windows-x86_64"
    else .error ("Unsupported platform: " ++ system ++ "-" ++ machine)
  else .error ("Unsupported platform: " ++ system ++ "-" ++ machine)

/-- The supported (system, machine) combinations and the platform tag each
one yields, as the claim enumerates them (for comparison with
`get_current_platform`). -/
def supportedPlatformTable : List ((String × String) × String) :=
  [(("linux", "x86_64"), "linux-x86_64"), (("linux", "amd64"), "linux-x86_64"),
   (("linux", "aarch64"), "linux-aarch64"), (("linux", "arm64"), "linux-aarch64"),
   (("darwin", "arm64"), "macos-aarch64"), (("darwin", "aarch64"), "macos-aarch64"),
   (("darwin", "x86_64"), "macos-x86_64"), (("darwin", "amd64"), "macos-x86_64"),
   (("windows", "x86_64"), "windows-x86_64"), (("windows", "amd64"), "windows-x86_64")]

/-- C4: for every (operating system, machine architecture) pair,
`get_current_platform` returns the enumerated fixed string of the supported
combination table, every returned tag is one of the five enumerated strings,
and every combination outside the table raises
`ValueError ("Unsupported platform: ...")`. -/
theorem C4_get_current_platform_enumerated (system machine : String) :
    (∀ tag, ((system, machine), tag) ∈ supportedPlatformTable →
      get_current_platform system machine = .ok tag) ∧
    (∀ tag, get_current_platform system machine = .ok tag →
      tag ∈ ["linux-x86_64", "linux-aarch64", "macos-aarch64", "macos-x86_64",
        "windows-x86_64"] ∧ ((system, machine), tag) ∈ supportedPlatformTable) ∧
    (((system, machine), "linux-x86_64") ∉ supportedPlatformTable →
     ((system, machine), "linux-aarch64") ∉ supportedPlatformTable →
     ((system, machine), "macos-aarch64") ∉ supportedPlatformTable →
     ((system, machine), "macos-x86_64") ∉ supportedPlatformTable →
     ((system, machine), "windows-x86_64") ∉ supportedPlatformTable →
      get_current_platform system machine =
        .error ("Unsupported platform: " ++ system ++ "-" ++ machine)) := by
  unfold get_current_platform supportedPlatformTable
  split_ifs with h1 h2 h3 h4 h5 h6 h7 h8 <;>
    simp_all [List.mem_cons, Prod.ext_iff] <;>
    aesop

/-- Python `PurePosixPath(file_name).name`, as `Path(file_name).name` is used
on the zip entry names: the last path component, after dropping empty
components and `"."` components (`""` when none remain). -/
def pathName (s : Str) : Str :=
  ((s.splitOn '/').filter (fun p => !p.isEmpty && p != ['.'])).getLastD []

/-- `scripts/download-artifacts.py:89` (and `testsuite` copy, line 104): the
condition selecting the pixi binary inside the archive, applied to each entry
name in order:
`file_name == "pixi" or file_name.endswith("/pixi") or file_name.endswith("pixi.exe")`. -/
def pixiBinaryMatches (file_name : Str) : Bool :=
  file_name == "pixi".toList
    || List.isSuffixOf "/pixi".toList file_name
    || List.isSuffixOf "pixi.exe".toList file_name

/-- `scripts/download-artifacts.py:125`-`132` (and `testsuite` copy, lines
146-153): the condition under which a zip entry is collected into
`backend_executables`. `base_name` is `Path(file_name).name`; on Windows the
base name must end in `".exe"`, elsewhere it must not end in `".exe"` and must
not contain `"."`. -/
def backendMatches (is_windows : Bool) (file_name : Str) : Bool :=
  let base_name := pathName file_name
  List.isPrefixOf "pixi-build-".toList base_name
    && ((is_windows && List.isSuffixOf ".exe".toList base_name)
      || (!is_windows && !(List.isSuffixOf ".exe".toList base_name)
          && !(pyIn ".".toList base_name)))

/-- A file the extractor leaves in the output directory: its name (a single
path component directly under the output directory — the extractor renames
`output_dir / entry` to `output_dir / Path(entry).name`) and the mode the
extractor sets with `chmod` (`none` when it sets none, as on Windows). -/
structure ExtractedFile where
  name : Str
  mode : Option Nat
deriving DecidableEq

/-- `scripts/download-artifacts.py:120`-`155` (and `testsuite` copy, lines
141-182), the `prefix-dev/pixi-build-backends` branch of
`download_and_extract_artifact`: collect every entry satisfying
`backendMatches`; if none matches, raise
`FileNotFoundError("Could not find any pixi-build-* executables in archive.
Archive contents: {file_list}")` (the error carries the listed contents) and
extract nothing; otherwise extract each match, move it to
`output_dir / Path(entry).name`, and on POSIX `chmod 0o755` it before
returning. -/
def extract_backends (is_windows : Bool) (file_list : List Str) :
    Except (List Str) (List ExtractedFile) :=
  let backend_executables := file_list.filter (backendMatches is_windows)
  if backend_executables.isEmpty then
    .error file_list
  else
    .ok (backend_executables.map fun executable =>
      { name := pathName executable
        mode := if is_windows then none else some 0o755 })

/-- `scripts/download-artifacts.py:86`-`118` (and `testsuite` copy, lines
101-139), the `prefix-dev/pixi` branch of `download_and_extract_artifact`:
find the first entry satisfying `pixiBinaryMatches`; if there is none, raise
`FileNotFoundError("Could not find pixi binary in archive. Archive contents:
{file_list}")` and extract nothing; otherwise extract that one entry to
`output_dir / Path(entry).name` and on POSIX `chmod 0o755` it. -/
def extract_pixi (is_windows : Bool) (file_list : List Str) :
    Except (List Str) (List ExtractedFile) :=
  match file_list.find? pixiBinaryMatches with
  | none => .error file_list
  | some pixi_binary =>
      .ok [{ name := pathName pixi_binary
             mode := if is_windows then none else some 0o755 }]

/-- C5: every zip entry that the backend rule recognizes — for example
`pixi-build-backends-v1/pixi-build-rust`, a recognized name inside a
subdirectory — is extracted to a file named exactly `Path(entry).name`
directly under the output directory (the subdirectory is flattened away),
and on POSIX its mode is set to `0o755` before the extractor returns. -/
theorem C5_extract_backend_flattens_and_chmods
    (file_list : List Str) (entry : Str)
    (hmem : entry ∈ file_list) (hmatch : backendMatches false entry = true) :
    ∃ outs, extract_backends false file_list = .ok outs ∧
      ExtractedFile.mk (pathName entry) (some 0o755) ∈ outs ∧
      ∀ out ∈ outs, out.mode = some 0o755 := by
  have hfil : entry ∈ file_list.filter (backendMatches false) :=
    List.mem_filter.mpr ⟨hmem, hmatch⟩
  have hne : (file_list.filter (backendMatches false)).isEmpty = false := by
    rcases h : file_list.filter (backendMatches false) with _ | ⟨x, xs⟩
    · rw [h] at hfil; simp at hfil
    · rfl
  refine ⟨(file_list.filter (backendMatches false)).map fun executable =>
      { name := pathName executable, mode := some 0o755 }, ?_, ?_, ?_⟩
  · simp only [extract_backends, hne, Bool.false_eq_true, if_false]
  · exact List.mem_map.mpr ⟨entry, hfil, by simp⟩
  · intro out hout
    obtain ⟨e, _, rfl⟩ := List.mem_map.mp hout
    rfl

/-- Witness for C5 at the claim's concrete input: a zip containing
`pixi-build-backends-v1/pixi-build-rust` yields the file `pixi-build-rust`
(its flattened base name) with mode `0o755`. -/
theorem C5_witness :
    ∃ outs,
      extract_backends false ["pixi-build-backends-v1/pixi-build-rust".toList]
        = .ok outs ∧
      ExtractedFile.mk "pixi-build-rust".toList (some 0o755) ∈ outs ∧
      ∀ out ∈ outs, out.mode = some 0o755 := by
  have h := C5_extract_backend_flattens_and_chmods
    ["pixi-build-backends-v1/pixi-build-rust".toList]
    "pixi-build-backends-v1/pixi-build-rust".toList
    (by decide) (by decide)
  have hname : pathName "pixi-build-backends-v1/pixi-build-rust".toList
      = "pixi-build-rust".toList := by decide
  rwa [hname] at h

theorem singleton_infix_iff_mem (c : Char) (s : Str) : [c] <:+: s ↔ c ∈ s := by
  constructor
  · intro h
    exact h.sublist.subset (by simp)
  · intro h
    obtain ⟨l, r, rfl⟩ := List.append_of_mem h
    exact ⟨l, r, by simp⟩

/-- The POSIX backend rule, spelled as the claim spells it: the redundant
`not base_name.endswith(".exe")` conjunct of the code is absorbed by
`"." not in base_name`. -/
theorem backendMatches_false_iff (f : Str) :
    backendMatches false f = true ↔
      ("pixi-build-".toList <+: pathName f ∧ '.' ∉ pathName f) := by
  simp only [backendMatches, Bool.false_and, Bool.false_or, Bool.not_false,
    Bool.true_and, Bool.and_eq_true, Bool.not_eq_true',
    List.isPrefixOf_iff_prefix]
  constructor
  · rintro ⟨hpfx, _, hdot⟩
    refine ⟨hpfx, fun hmem => ?_⟩
    have : pyIn ['.'] (pathName f) = true :=
      (pyIn_infix_iff _ _).mpr ((singleton_infix_iff_mem _ _).mpr hmem)
    simp [String.toList] at hdot
    exact absurd this (by simp [hdot])
  · rintro ⟨hpfx, hmem⟩
    have hdot : pyIn ".".toList (pathName f) = false := by
      rcases h : pyIn ".".toList (pathName f) with _ | _
      · rfl
      · exact absurd ((singleton_infix_iff_mem _ _).mp
          ((pyIn_infix_iff _ _).mp h)) hmem
    have hsfx : List.isSuffixOf ".exe".toList (pathName f) = false := by
      rcases h : List.isSuffixOf ".exe".toList (pathName f) with _ | _
      · rfl
      · exact absurd (List.IsSuffix.mem (by decide)
          ((List.isSuffixOf_iff_suffix).mp h)) hmem
    exact ⟨hpfx, hsfx, hdot⟩

/-- The Windows backend rule, spelled as the claim spells it. -/
theorem backendMatches_true_iff (f : Str) :
    backendMatches true f = true ↔
      ("pixi-build-".toList <+: pathName f ∧ ".exe".toList <:+ pathName f) := by
  simp only [backendMatches, Bool.true_and, Bool.not_true, Bool.false_and,
    Bool.or_false, Bool.and_eq_true, List.isPrefixOf_iff_prefix,
    List.isSuffixOf_iff_suffix]

/-- C10: a zip entry is recognized as a backend executable on POSIX iff its
base name starts with `pixi-build-` and contains no `'.'`; on Windows iff its
base name starts with `pixi-build-` and ends with `".exe"`; consequently the
entry `pixi-build-python.sh` is not recognized on POSIX and no extraction on
POSIX ever produces a file of that name. -/
theorem C10_backend_recognition_rule (f : Str) :
    (backendMatches false f = true ↔
      ("pixi-build-".toList <+: pathName f ∧ '.' ∉ pathName f)) ∧
    (backendMatches true f = true ↔
      ("pixi-build-".toList <+: pathName f ∧ ".exe".toList <:+ pathName f)) ∧
    backendMatches false "pixi-build-python.sh".toList = false ∧
    (∀ file_list outs, extract_backends false file_list = .ok outs →
      ∀ out ∈ outs, out.name ≠ "pixi-build-python.sh".toList) := by
  refine ⟨backendMatches_false_iff f, backendMatches_true_iff f, by decide, ?_⟩
  intro file_list outs hok out hout
  by_cases he : (file_list.filter (backendMatches false)).isEmpty
  · simp [extract_backends, he] at hok
  · simp only [extract_backends, he, Bool.false_eq_true, if_false,
      eq_self_iff_true, Except.ok.injEq] at hok
    subst hok
    obtain ⟨e, hef, rfl⟩ := List.mem_map.mp hout
    have hm : backendMatches false e = true := (List.mem_filter.mp hef).2
    have hdot : '.' ∉ pathName e := ((backendMatches_false_iff e).mp hm).2
    show pathName e ≠ "pixi-build-python.sh".toList
    intro hname
    rw [hname] at hdot
    exact hdot (by decide)

/-- C6: when zero entries of the archive match the expected executable naming
convention, `download_and_extract_artifact` raises `FileNotFoundError`
(carrying the archive contents) and extracts no entry — for the pixi branch
(entry equal to `"pixi"`, ending in `"/pixi"`, or ending in `"pixi.exe"`) and
for the backends branch (base name starting with `"pixi-build-"` under the
platform extension rule) alike; concretely on archives
`["pixi-build-rust"]` (no pixi binary) and `["README.md", "bin/pixi.sh"]`
(no backend executable). -/
theorem C6_extract_raises_not_found_when_no_match
    (is_windows : Bool) (file_list : List Str) :
    ((∀ f ∈ file_list, pixiBinaryMatches f = false) →
      extract_pixi is_windows file_list = .error file_list) ∧
    ((∀ f ∈ file_list, backendMatches is_windows f = false) →
      extract_backends is_windows file_list = .error file_list) ∧
    extract_pixi false ["pixi-build-rust".toList]
      = .error ["pixi-build-rust".toList] ∧
    extract_backends false ["README.md".toList, "bin/pixi.sh".toList]
      = .error ["README.md".toList, "bin/pixi.sh".toList] := by
  refine ⟨?_, ?_, by rfl, by rfl⟩
  · intro hnone
    have : file_list.find? pixiBinaryMatches = none :=
      List.find?_eq_none.mpr (fun f hf => by simp [hnone f hf])
    simp [extract_pixi, this]
  · intro hnone
    have : file_list.filter (backendMatches is_windows) = [] :=
      List.filter_eq_nil_iff.mpr (fun f hf => by simp [hnone f hf])
    simp [extract_backends, this]

/-- A GitHub Actions workflow run, reduced to what the download script reads
from it: its id and the names of its artifacts
(`selected_run.get_artifacts()`). -/
structure WorkflowRun where
  id : Nat
  artifacts : List Str
deriving DecidableEq

/-- The exceptions `download_github_artifact`
(`testsuite/scripts/download-artifacts.py:259`,
`scripts/download-artifacts.py:185`) can raise while choosing a run and an
artifact. `artifactNotFound` carries the artifact names listed in the
`FileNotFoundError` message (`Available artifacts: ...`). `noSuitableRun` is
the testsuite copy's `ValueError("Could not find a suitable workflow run")`;
`unboundLocalError` is the `UnboundLocalError` the scripts copy raises at its
`Selected run:` print when the scan loop never ran and `selected_run` was
never assigned. -/
inductive DownloadError
  | unsupportedRepo
  | workflowNotFound
  | noSuitableRun
  | unboundLocalError
  | artifactNotFound (available : List Str)
deriving DecidableEq

/-- Whether the error is the `FileNotFoundError` that reports
"Could not find artifact matching pattern ... Available artifacts: ..." -/
def DownloadError.listsAvailableArtifacts : DownloadError → Bool
  | .artifactNotFound _ => true
  | _ => false

/-- The loop `for selected_run in itertools.islice(runs, 3)` of
`download_github_artifact` (`testsuite/scripts/download-artifacts.py:318`
and `342`; `scripts/download-artifacts.py:239`), over the run list it is
given: try each run in order, stop at the first whose artifact list yields a
match, and remember the last run iterated (`selected_run` and `artifacts`
keep the values of the last iteration). Returns (`selected_run`,
`target_artifact`). -/
def scanRuns (pat : Str) : List WorkflowRun → Option WorkflowRun →
    Option WorkflowRun × Option Str
  | [], selected_run => (selected_run, none)
  | run :: rest, _ =>
      match get_matching_artifact run.artifacts pat with
      | some a => (some run, some a)
      | none => scanRuns pat rest (some run)

/-- The run-scanning tail of `download_github_artifact`
(`testsuite/scripts/download-artifacts.py:338`-`362`): scan the first 3 of
the given candidate runs; afterwards, `selected_run is None` raises
`ValueError("Could not find a suitable workflow run")`, a scan with a run
but no artifact raises `FileNotFoundError` listing the artifacts of the run
the loop stopped on, and otherwise the run and its matching artifact are
used. -/
def selectFromRuns (runs : List WorkflowRun) (pat : Str) :
    Except DownloadError (WorkflowRun × Str) :=
  match scanRuns pat (runs.take 3) none with
  | (none, _) => .error .noSuitableRun
  | (some selected_run, none) => .error (.artifactNotFound selected_run.artifacts)
  | (some selected_run, some a) => .ok (selected_run, a)

/-- The same run-scanning tail in the scripts copy
(`scripts/download-artifacts.py:236`-`256`): this copy neither initializes
`selected_run = None` before the loop nor guards `selected_run is None`
afterwards, so when the candidate-run list is empty the
`console.print(f"[blue]Selected run: {selected_run.id} ...")` at line 245
raises `UnboundLocalError` (`selected_run` referenced before assignment)
before any not-found check runs; with at least one candidate run it behaves
as the testsuite copy. -/
def scripts_selectFromRuns (runs : List WorkflowRun) (pat : Str) :
    Except DownloadError (WorkflowRun × Str) :=
  match scanRuns pat (runs.take 3) none with
  | (none, _) => .error .unboundLocalError
  | (some selected_run, none) => .error (.artifactNotFound selected_run.artifacts)
  | (some selected_run, some a) => .ok (selected_run, a)

theorem scanRuns_eq_some (pat : Str) (l : List WorkflowRun)
    (last : Option WorkflowRun) (r : WorkflowRun) (a : Str)
    (h : scanRuns pat l last = (some r, some a)) :
    ∃ pre post, l = pre ++ r :: post ∧
      (∀ r' ∈ pre, get_matching_artifact r'.artifacts pat = none) ∧
      get_matching_artifact r.artifacts pat = some a := by
  induction l generalizing last with
  | nil => simp [scanRuns] at h
  | cons run rest ih =>
    rcases hm : get_matching_artifact run.artifacts pat with _ | a'
    · rw [scanRuns, hm] at h
      obtain ⟨pre, post, hsplit, hpre, hr⟩ := ih (some run) h
      exact ⟨run :: pre, post, by simp [hsplit], by
        intro r' hr'
        rcases List.mem_cons.mp hr' with rfl | hr'
        · exact hm
        · exact hpre r' hr', hr⟩
    · rw [scanRuns, hm] at h
      obtain ⟨rfl, rfl⟩ : run = r ∧ a' = a := by
        constructor <;> cases h <;> rfl
      exact ⟨[], rest, rfl, by simp, hm⟩

theorem scanRuns_all_none (pat : Str) (l : List WorkflowRun)
    (last : Option WorkflowRun)
    (h : ∀ r ∈ l, get_matching_artifact r.artifacts pat = none) :
    scanRuns pat l last = (l.getLast?.elim last some, none) := by
  induction l generalizing last with
  | nil => rfl
  | cons run rest ih =>
    have hm : get_matching_artifact run.artifacts pat = none :=
      h run (List.mem_cons_self run rest)
    have hrest : ∀ r ∈ rest, get_matching_artifact r.artifacts pat = none :=
      fun r hr => h r (List.mem_cons_of_mem _ hr)
    have hstep : scanRuns pat (run :: rest) last = scanRuns pat rest (some run) := by
      rw [scanRuns, hm]
    rw [hstep, ih (some run) hrest]
    rcases rest with _ | ⟨y, ys⟩
    · rfl
    · rw [List.getLast?_cons_cons]
      rcases hy : (y :: ys).getLast? with _ | z
      · exact absurd (List.getLast?_eq_none_iff.mp hy) (by simp)
      · rfl

/-- After at least one iteration (`last` already assigned, or a first run
consumed), the loop's `selected_run` is never `None`. -/
theorem scanRuns_fst_isSome_of_some (pat : Str) (l : List WorkflowRun)
    (x : WorkflowRun) : (scanRuns pat l (some x)).1.isSome = true := by
  induction l generalizing x with
  | nil => rfl
  | cons run rest ih =>
    have hred : scanRuns pat (run :: rest) (some x) =
        match get_matching_artifact run.artifacts pat with
        | some a => (some run, some a)
        | none => scanRuns pat rest (some run) := by
      rw [scanRuns]
    rcases hm : get_matching_artifact run.artifacts pat with _ | a
    · rw [hred, hm]
      exact ih run
    · rw [hred, hm]
      rfl

/-- On a nonempty candidate-run list, the scripts copy's scan tail and the
testsuite copy's scan tail agree: the two differ only when the loop never
ran. -/
theorem scripts_selectFromRuns_eq_of_ne_nil (runs : List WorkflowRun)
    (pat : Str) (h : runs ≠ []) :
    scripts_selectFromRuns runs pat = selectFromRuns runs pat := by
  have hsome : (scanRuns pat (runs.take 3) none).1.isSome = true := by
    rcases runs with _ | ⟨r, rest⟩
    · exact absurd rfl h
    · rw [List.take_succ_cons]
      have hred : scanRuns pat (r :: rest.take 2) none =
          match get_matching_artifact r.artifacts pat with
          | some a => (some r, some a)
          | none => scanRuns pat (rest.take 2) (some r) := by
        rw [scanRuns]
      rcases hm : get_matching_artifact r.artifacts pat with _ | a
      · rw [hred, hm]
        exact scanRuns_fst_isSome_of_some pat (rest.take 2) r
      · rw [hred, hm]
        rfl
  rcases hs : scanRuns pat (runs.take 3) none with ⟨sel, art⟩
  rw [hs] at hsome
  rcases sel with _ | selr
  · simp at hsome
  · rw [scripts_selectFromRuns, selectFromRuns, hs]
    rcases art with _ | a <;> rfl

/-- C2, amended: with no run id, the locator scans at most the first 3
candidate runs in listed order and stops at the first yielding a match; if
at least one candidate run exists and none of the scanned runs yields a
match, it raises the `FileNotFoundError` that lists the artifact names of
the last scanned run (the two copies of the script agree on every nonempty
candidate list); if the branch has no candidate runs at all, the failure is
not that "not found" error: the testsuite copy raises
`ValueError("Could not find a suitable workflow run")` and the scripts copy
crashes with `UnboundLocalError` at its `Selected run:` print. -/
theorem C2_scan_bounded_stops_at_first_match (runs : List WorkflowRun) (pat : Str) :
    (∀ r a, selectFromRuns runs pat = .ok (r, a) →
      ∃ pre post, runs.take 3 = pre ++ r :: post ∧
        (∀ r' ∈ pre, get_matching_artifact r'.artifacts pat = none) ∧
        get_matching_artifact r.artifacts pat = some a) ∧
    (runs = [] → selectFromRuns runs pat = .error .noSuitableRun ∧
      scripts_selectFromRuns runs pat = .error .unboundLocalError) ∧
    (runs ≠ [] →
      (∀ r ∈ runs.take 3, get_matching_artifact r.artifacts pat = none) →
      ∃ lastScanned, (runs.take 3).getLast? = some lastScanned ∧
        selectFromRuns runs pat =
          .error (.artifactNotFound lastScanned.artifacts)) ∧
    (runs ≠ [] →
      scripts_selectFromRuns runs pat = selectFromRuns runs pat) := by
  refine ⟨?_, fun h => ⟨by subst h; rfl, by subst h; rfl⟩, ?_,
    fun h => scripts_selectFromRuns_eq_of_ne_nil runs pat h⟩
  · intro r a h
    rcases hs : scanRuns pat (runs.take 3) none with ⟨sel, art⟩
    rw [selectFromRuns, hs] at h
    rcases sel with _ | r'
    · exact absurd h (by simp)
    · rcases art with _ | a'
      · exact absurd h (by simp)
      · have hra : r' = r ∧ a' = a := by simpa using h
        obtain ⟨rfl, rfl⟩ := hra
        exact scanRuns_eq_some pat (runs.take 3) none _ _ hs
  · intro hne hnone
    have htake : runs.take 3 ≠ [] := by
      rcases runs with _ | ⟨x, xs⟩
      · exact absurd rfl hne
      · simp
    rcases hy : (runs.take 3).getLast? with _ | lastScanned
    · exact absurd (List.getLast?_eq_none_iff.mp hy) htake
    · refine ⟨lastScanned, rfl, ?_⟩
      rw [selectFromRuns, scanRuns_all_none pat _ none hnone, hy]
      rfl

/-- Counterexample to C2 as stated: with an empty candidate-run list, no
scanned run yields a match (vacuously), yet neither copy fails with a "not
found" error that lists available artifact names — the testsuite copy raises
`ValueError("Could not find a suitable workflow run")` and the scripts copy
crashes with `UnboundLocalError` on `selected_run` at its `Selected run:`
print. -/
theorem C2_counterexample_empty_run_list :
    selectFromRuns [] "pixi-linux-x86_64".toList = .error .noSuitableRun ∧
    scripts_selectFromRuns [] "pixi-linux-x86_64".toList
      = .error .unboundLocalError ∧
    DownloadError.noSuitableRun.listsAvailableArtifacts = false ∧
    DownloadError.unboundLocalError.listsAvailableArtifacts = false :=
  ⟨rfl, rfl, rfl, rfl⟩

/-- Python truthiness of an `int | None` value, as `if run_id:` and
`elif pr_number:` test it: `None` and `0` are falsy, every other int truthy. -/
def intTruthy : Option Int → Bool
  | none => false
  | some n => n != 0

/-- The GitHub API surface `download_github_artifact` reads, as functions:
`repository.get_workflow_run(run_id)`, `repository.get_pull(pr).head.sha`,
the named workflow's runs filtered by `head_sha`, the named workflow's runs
for `branch="main", event="push"`, and whether the named workflow exists in
`repository.get_workflows()`. -/
structure GithubEnv where
  getWorkflowRun : Int → WorkflowRun
  prHeadSha : Int → Str
  runsForHeadSha : Str → List WorkflowRun
  mainPushRuns : List WorkflowRun
  hasWorkflow : Bool

/-- `testsuite/scripts/download-artifacts.py:259`-`362`,
`download_github_artifact`, the run/artifact selection: `if run_id:` use
exactly that run (`repository.get_workflow_run(run_id)`), then the shared
not-found check on its artifacts; `elif pr_number:` resolve the PR's head
commit and scan (at most 3 of) the workflow's runs for that `head_sha`;
`else` scan (at most 3 of) the workflow's `main`-branch push runs. The two
workflow-scanning branches first look the workflow up by name and raise
`ValueError("Could not find workflow: ...")` when it is absent. `pat` is the
platform-specific artifact name pattern. -/
def download_github_artifact (env : GithubEnv) (pat : Str)
    (run_id pr_number : Option Int) : Except DownloadError (WorkflowRun × Str) :=
  if intTruthy run_id then
    let selected_run := env.getWorkflowRun (run_id.getD 0)
    match get_matching_artifact selected_run.artifacts pat with
    | some a => .ok (selected_run, a)
    | none => .error (.artifactNotFound selected_run.artifacts)
  else if intTruthy pr_number then
    if env.hasWorkflow then
      selectFromRuns (env.runsForHeadSha (env.prHeadSha (pr_number.getD 0))) pat
    else .error .workflowNotFound
  else
    if env.hasWorkflow then selectFromRuns env.mainPushRuns pat
    else .error .workflowNotFound

/-- The explicit-run branch behaves exactly as scanning the one-element
candidate list consisting of the fetched run. -/
theorem selectFromRuns_singleton (r : WorkflowRun) (pat : Str) :
    selectFromRuns [r] pat =
      match get_matching_artifact r.artifacts pat with
      | some a => .ok (r, a)
      | none => .error (.artifactNotFound r.artifacts) := by
  rcases h : get_matching_artifact r.artifacts pat with _ | a <;>
    simp [selectFromRuns, scanRuns, h]

/-- C3, amended: candidate-run precedence of `download_github_artifact`.
When a nonzero run id is given, exactly the fetched run is the only
candidate (the result equals a scan of that one-run list, and neither the
PR runs nor the branch runs are consulted); otherwise, when a nonzero PR
number is given, the candidates are the named workflow's runs for the PR's
resolved head commit; otherwise the candidates are the workflow's most
recent push runs on the main branch. A run id or PR number equal to 0 is
falsy in Python and is treated as not given. -/
theorem C3_candidate_run_precedence (env : GithubEnv) (pat : Str)
    (run_id pr_number : Option Int) :
    (∀ i, run_id = some i → i ≠ 0 →
      download_github_artifact env pat run_id pr_number =
        selectFromRuns [env.getWorkflowRun i] pat) ∧
    (intTruthy run_id = false → ∀ p, pr_number = some p → p ≠ 0 →
      download_github_artifact env pat run_id pr_number =
        if env.hasWorkflow then
          selectFromRuns (env.runsForHeadSha (env.prHeadSha p)) pat
        else .error .workflowNotFound) ∧
    (intTruthy run_id = false → intTruthy pr_number = false →
      download_github_artifact env pat run_id pr_number =
        if env.hasWorkflow then selectFromRuns env.mainPushRuns pat
        else .error .workflowNotFound) := by
  refine ⟨?_, ?_, ?_⟩
  · rintro i rfl hi
    have ht : intTruthy (some i) = true := by
      simp [intTruthy, hi]
    rw [download_github_artifact, if_pos ht, selectFromRuns_singleton]
    rfl
  · rintro hrid p rfl hp
    have ht : intTruthy (some p) = true := by
      simp [intTruthy, hp]
    rw [download_github_artifact, if_neg (by simp [hrid]), if_pos ht]
    rfl
  · intro hrid hprn
    rw [download_github_artifact, if_neg (by simp [hrid]), if_neg (by simp [hprn])]

/-- A concrete GitHub state for the C3 counterexample: run id 0 names a run
that carries the matching artifact, while the main branch's push runs carry
none. -/
def envRunIdZero : GithubEnv where
  getWorkflowRun := fun _ => ⟨11, ["pixi-linux-x86_64".toList]⟩
  prHeadSha := fun _ => []
  runsForHeadSha := fun _ => []
  mainPushRuns := [⟨22, []⟩]
  hasWorkflow := true

/-- Counterexample to C3 as stated: with run id 0 given, the specified run
(which would yield the artifact `pixi-linux-x86_64`) is not fetched; the
code falls through to the main-branch scan and fails on that run's empty
artifact list instead. -/
theorem C3_counterexample_run_id_zero :
    download_github_artifact envRunIdZero "pixi-linux-x86_64".toList
        (some 0) none = .error (.artifactNotFound []) ∧
    selectFromRuns [envRunIdZero.getWorkflowRun 0] "pixi-linux-x86_64".toList
      = .ok (⟨11, ["pixi-linux-x86_64".toList]⟩, "pixi-linux-x86_64".toList) :=
  ⟨rfl, rfl⟩

/-- `scripts/update-lockfiles.py:110`-`142`, `find_and_process_lockfiles`
together with `pixi_lock` (lines 92-107): for each directory containing a
`pixi.lock` file, in the order found, run `pixi lock` there; a non-zero exit
of that command raises `PixiLockError`, which the loop turns into
`sys.exit(1)` at once. The embedding takes the ordered list of directories
(the parents of the found lockfiles) and the exit code `pixi lock` would
produce in each, and returns the directories actually processed, in order,
with the script's exit code. -/
def find_and_process_lockfiles {α : Type} (exitCode : α → Int) :
    List α → List α × Nat
  | [] => ([], 0)
  | directory :: rest =>
      if exitCode directory = 0 then
        let r := find_and_process_lockfiles exitCode rest
        (directory :: r.1, r.2)
      else ([directory], 1)

/-- C7: the lockfile updater invokes the lock command once per directory in
discovery order; when every invocation exits zero each directory is
processed exactly once and the script exits zero; it halts at the first
directory whose lock command exits non-zero — the directories processed are
exactly the preceding ones plus that directory, none after it, and the
process exit code is 1; and a zero exit occurs exactly when every
invocation succeeded (no partial-success aggregation). -/
theorem C7_lockfile_update_stops_at_first_failure
    (α : Type) (exitCode : α → Int) (dirs : List α) :
    ((∀ d ∈ dirs, exitCode d = 0) →
      find_and_process_lockfiles exitCode dirs = (dirs, 0)) ∧
    (∀ pre d post, dirs = pre ++ d :: post → (∀ x ∈ pre, exitCode x = 0) →
      exitCode d ≠ 0 →
      find_and_process_lockfiles exitCode dirs = (pre ++ [d], 1)) ∧
    ((find_and_process_lockfiles exitCode dirs).2 = 0 ↔
      ∀ d ∈ dirs, exitCode d = 0) := by
  refine ⟨?_, ?_, ?_⟩
  · intro h
    induction dirs with
    | nil => rfl
    | cons d rest ih =>
      have hd : exitCode d = 0 := h d (by simp)
      have := ih (fun x hx => h x (List.mem_cons_of_mem _ hx))
      simp [find_and_process_lockfiles, hd, this]
  · intro pre d post hsplit hpre hd
    subst hsplit
    induction pre with
    | nil => simp [find_and_process_lockfiles, hd]
    | cons x rest ih =>
      have hx : exitCode x = 0 := hpre x (by simp)
      have := ih (fun y hy => hpre y (List.mem_cons_of_mem _ hy))
      simp [find_and_process_lockfiles, hx, this]
  · induction dirs with
    | nil => simp [find_and_process_lockfiles]
    | cons d rest ih =>
      by_cases hd : exitCode d = 0
      · simp [find_and_process_lockfiles, hd, ih]
      · simp [find_and_process_lockfiles, hd]

/-- Python `a or b` over `str | None` operands, as
`args.token or os.getenv("GITHUB_TOKEN")` evaluates: `None` and the empty
string are falsy. -/
def pyOrStr : Option String → Option String → Option String
  | some s, b => if s.isEmpty then b else some s
  | none, b => b

/-- Python truthiness of a `str | None` value, as `if not github_token:`
tests it. -/
def strFalsy : Option String → Bool
  | none => true
  | some s => s.isEmpty

/-- The exit status of the Python call `sys.exit()` *with no argument*:
`SystemExit(None)`, which terminates the process with status 0. -/
def sys_exit_no_argument : Nat := 0

/-- `scripts/download-artifacts.py:307`-`324` (and
`scripts/download_artifacts.py:316`-`331`), the tail of `main`: resolve the
token as `args.token or os.getenv("GITHUB_TOKEN")`; when the result is
falsy, print an error and call `sys.exit()` with no argument; otherwise run
the download and exit 0 on success, 1 on any exception. Returns the process
exit status. -/
def scripts_main_exit (token_arg env_token : Option String)
    (download : Except DownloadError Unit) : Nat :=
  let github_token := pyOrStr token_arg env_token
  if strFalsy github_token then sys_exit_no_argument
  else
    match download with
    | .ok _ => 0
    | .error _ => 1

/-- C8, the missing-token failure mode: when no token is supplied (or only
an empty one), `scripts/download-artifacts.py` and
`scripts/download_artifacts.py` print "[ERROR] No GitHub token provided"
but call `sys.exit()` with no argument, so the process exits with status 0
— not the non-zero exit the claim states. Every other failure of these
scripts does exit 1. -/
theorem C8_missing_token_exits_with_status_zero
    (download : Except DownloadError Unit) :
    scripts_main_exit none none download = 0 ∧
    scripts_main_exit (some "") none download = 0 ∧
    scripts_main_exit (some "") (some "") download = 0 ∧
    scripts_main_exit (some "ghp-token") none
      (.error (.artifactNotFound [])) = 1 :=
  ⟨rfl, rfl, rfl, rfl⟩

/-- The state of `download-metadata.json` before `write_metadata` runs, as
the function distinguishes it: the file may be absent, hold text that is not
valid JSON (`json.JSONDecodeError`), hold valid JSON that is not an object
(on which the subsequent `existing[repo] = metadata` raises `TypeError`), or
hold a JSON object, whose key-value pairs are carried. -/
inductive MetadataFile (V : Type)
  | absent
  | invalidJson
  | jsonNonObject
  | jsonObject (entries : List (String × V))

/-- Python dict assignment `existing[repo] = metadata` on an
insertion-ordered mapping: replace the value at the key in place when the
key is present, append the pair otherwise. -/
def setKey {V : Type} (k : String) (v : V) : List (String × V) → List (String × V)
  | [] => [(k, v)]
  | p :: rest => if p.1 = k then (k, v) :: rest else p :: setKey k v rest

/-- `testsuite/scripts/download-artifacts.py:241`-`256`, `write_metadata`:
read `download-metadata.json` if it exists; on `JSONDecodeError` start from
the empty mapping `{}`; then set `existing[repo] = metadata` and write the
result back. A file holding valid JSON that is not an object makes the item
assignment raise `TypeError` (nothing is written). The embedding returns the
mapping written, or the raised error. -/
def write_metadata {V : Type} (existing_file : MetadataFile V) (repo : String)
    (metadata : V) : Except String (List (String × V)) :=
  match existing_file with
  | .absent => .ok (setKey repo metadata [])
  | .invalidJson => .ok (setKey repo metadata [])
  | .jsonNonObject => .error "TypeError"
  | .jsonObject existing => .ok (setKey repo metadata existing)

theorem lookup_setKey_self {V : Type} (k : String) (v : V)
    (m : List (String × V)) : (setKey k v m).lookup k = some v := by
  induction m with
  | nil => simp [setKey, List.lookup]
  | cons p rest ih =>
    by_cases hp : p.1 = k
    · simp [setKey, hp, List.lookup]
    · simp [setKey, hp, List.lookup,
        beq_eq_false_iff_ne.mpr (fun x : k = p.1 => hp x.symm), ih]

theorem lookup_setKey_ne {V : Type} (k other : String) (v : V)
    (m : List (String × V)) (h : other ≠ k) :
    (setKey k v m).lookup other = m.lookup other := by
  induction m with
  | nil => simp [setKey, List.lookup, beq_eq_false_iff_ne.mpr h]
  | cons p rest ih =>
    by_cases hp : p.1 = k
    · subst hp
      simp [setKey, List.lookup, beq_eq_false_iff_ne.mpr h]
    · by_cases ho : other = p.1
      · subst ho
        simp [setKey, hp, List.lookup]
      · simp [setKey, hp, List.lookup,
          beq_eq_false_iff_ne.mpr (fun x : other = p.1 => ho x), ih]

theorem keys_setKey_superset {V : Type} (k : String) (v : V)
    (m : List (String × V)) (key : String) (hkey : key ∈ m.map Prod.fst) :
    key ∈ (setKey k v m).map Prod.fst := by
  induction m with
  | nil => simp at hkey
  | cons p rest ih =>
    have hkey' : key = p.1 ∨ key ∈ rest.map Prod.fst := by
      simpa using hkey
    rcases hkey' with rfl | hq
    · by_cases hp : p.1 = k
      · simp [setKey, hp]
      · simp [setKey, hp]
    · by_cases hp : p.1 = k
      · have : (setKey k v (p :: rest)).map Prod.fst = k :: rest.map Prod.fst := by
          simp [setKey, hp]
        rw [this]
        exact List.mem_cons_of_mem _ hq
      · have : (setKey k v (p :: rest)).map Prod.fst
            = p.1 :: (setKey k v rest).map Prod.fst := by
          simp [setKey, hp]
        rw [this]
        exact List.mem_cons_of_mem _ (ih hq)

/-- C9: `write_metadata` modifies only the entry keyed by the given
repository. When the prior file parses as a JSON object, the written mapping
maps the repository to the new metadata record, maps every other key to its
prior value, and keeps every prior key; when the file is absent or not valid
JSON (and only then among the written outcomes) the written mapping holds
just the given repository; a file holding valid JSON that is not an object
makes the item assignment raise `TypeError`, writing nothing. -/
theorem C9_write_metadata_frame (V : Type) (existing : List (String × V))
    (repo other : String) (metadata : V) :
    (∀ out, write_metadata (.jsonObject existing) repo metadata = .ok out →
      out.lookup repo = some metadata ∧
      (other ≠ repo → out.lookup other = existing.lookup other) ∧
      ∀ key ∈ existing.map Prod.fst, key ∈ out.map Prod.fst) ∧
    write_metadata (.absent : MetadataFile V) repo metadata
      = .ok [(repo, metadata)] ∧
    write_metadata (.invalidJson : MetadataFile V) repo metadata
      = .ok [(repo, metadata)] ∧
    (∀ out, write_metadata (.jsonNonObject : MetadataFile V) repo metadata
      ≠ .ok out) := by
  refine ⟨?_, rfl, rfl, ?_⟩
  · intro out hout
    have : setKey repo metadata existing = out := by
      simpa [write_metadata] using hout
    subst this
    exact ⟨lookup_setKey_self repo metadata existing,
      fun h => lookup_setKey_ne repo other metadata existing h,
      fun key hkey => keys_setKey_superset repo metadata existing key hkey⟩
  · intro out h
    simp [write_metadata] at h
